import Mathlib

/-!
Verification of the interactive modules of the portfolio website:
the magnetic-button pointer-attraction controller (src/js/magnetic.js)
and the work-row image smooth-follower loop (src/js/main.js, initWorkHover).

The JavaScript is shallowly embedded over exact rational arithmetic.
JavaScript division, which can produce the non-finite values Infinity and
NaN when the divisor is zero, is modelled by the type JSNum; assigning a
CSS length built from a non-finite number is an invalid declaration that
the style engine silently drops, which the transform setter models.
-/

namespace Portfolio

/-- The strength constant of MagneticButton (this.strength = 40). -/
def strength : ℚ := 40

/-- Result of el.getBoundingClientRect(): left, top, width, height.
For an element detached from the document all four fields are 0. -/
structure Rect where
  left : ℚ
  top : ℚ
  width : ℚ
  height : ℚ
  deriving DecidableEq, Repr

/-- A JavaScript number: either a finite value (a rational in this exact
model) or a non-finite value (Infinity, -Infinity or NaN, which this
development does not need to distinguish). -/
inductive JSNum where
  | fin : ℚ → JSNum
  | nonfin : JSNum
  deriving DecidableEq, Repr

/-- JavaScript division: a zero divisor yields a non-finite value
(Infinity, -Infinity or NaN depending on the sign of the dividend). -/
def jsDiv : JSNum → JSNum → JSNum
  | JSNum.fin a, JSNum.fin b => if b = 0 then JSNum.nonfin else JSNum.fin (a / b)
  | _, _ => JSNum.nonfin

/-- JavaScript multiplication: any non-finite operand propagates
(Infinity * 40 = Infinity, NaN * 40 = NaN). -/
def jsMul : JSNum → JSNum → JSNum
  | JSNum.fin a, JSNum.fin b => JSNum.fin (a * b)
  | _, _ => JSNum.nonfin

/-- A CSS transition declaration, as written by the controller:
property name, duration in seconds, and timing-function text. -/
structure Transition where
  property : String
  duration : ℚ
  timingFunction : String
  deriving DecidableEq, Repr

/-- The engage transition: 'transform 0.3s cubic-bezier(.7, 0, .3, 1)'. -/
def engageTransition : Transition :=
  { property := "transform", duration := 3/10,
    timingFunction := "cubic-bezier(.7, 0, .3, 1)" }

/-- The release transition: 'transform 0.7s cubic-bezier(.7, 0, .3, 1)'. -/
def releaseTransition : Transition :=
  { property := "transform", duration := 7/10,
    timingFunction := "cubic-bezier(.7, 0, .3, 1)" }

/-- The observable state of one magnetic element: the applied transform
translation (x, y in px), the transition declaration, and a field of an
abstract type standing for every other property of the element. -/
structure ElemState (α : Type) where
  transformX : ℚ
  transformY : ℚ
  transition : Transition
  rest : α
  deriving DecidableEq, Repr

variable {α : Type}

/-- Assignment el.style.transform = translate(xpx, ypx): a valid CSS
length requires a finite number, so if either coordinate is non-finite
the declaration is invalid and the style engine leaves the property
unchanged. -/
def setTransform (x y : JSNum) (s : ElemState α) : ElemState α :=
  match x, y with
  | JSNum.fin a, JSNum.fin b => { s with transformX := a, transformY := b }
  | _, _ => s

/-- Assignment el.style.transition = t (always a valid literal here). -/
def setTransition (t : Transition) (s : ElemState α) : ElemState α :=
  { s with transition := t }

/-- MagneticButton.onMouseMove (src/js/magnetic.js lines 24-38), with the
element geometry rect = el.getBoundingClientRect() and the pointer at
(clientX, clientY). -/
def onMouseMove (rect : Rect) (clientX clientY : ℚ) (s : ElemState α) :
    ElemState α :=
  let centerX := rect.left + rect.width / 2
  let centerY := rect.top + rect.height / 2
  let distX := clientX - centerX
  let distY := clientY - centerY
  let moveX := jsMul (jsDiv (JSNum.fin distX) (JSNum.fin rect.width)) (JSNum.fin strength)
  let moveY := jsMul (jsDiv (JSNum.fin distY) (JSNum.fin rect.height)) (JSNum.fin strength)
  setTransition engageTransition (setTransform moveX moveY s)

/-- MagneticButton.onMouseLeave (src/js/magnetic.js lines 40-43). -/
def onMouseLeave (s : ElemState α) : ElemState α :=
  setTransition releaseTransition (setTransform (JSNum.fin 0) (JSNum.fin 0) s)

/-- C1: on pointer-move over an attached element (nonzero dimensions), the
applied translation on each axis is (pointer coordinate - center
coordinate) / dimension * 40; in particular for a 200x200 element with
top-left corner (0,0), hence center (100,100), and pointer (150,100) the
translation is exactly (10px, 0px). -/
theorem mouseMove_translation_formula (rect : Rect) (clientX clientY : ℚ)
    (s : ElemState α) (hw : rect.width ≠ 0) (hh : rect.height ≠ 0) :
    (onMouseMove rect clientX clientY s).transformX
        = (clientX - (rect.left + rect.width / 2)) / rect.width * 40 ∧
    (onMouseMove rect clientX clientY s).transformY
        = (clientY - (rect.top + rect.height / 2)) / rect.height * 40 ∧
    (onMouseMove (Rect.mk 0 0 200 200) 150 100 s).transformX = 10 ∧
    (onMouseMove (Rect.mk 0 0 200 200) 150 100 s).transformY = 0 := by
  refine ⟨?_, ?_, ?_, ?_⟩ <;>
    simp [onMouseMove, jsDiv, jsMul, setTransform, setTransition, strength,
      hw, hh] <;> norm_num

/-- Witness for mouseMove_translation_formula at a concrete input. -/
theorem mouseMove_translation_formula_witness :
    (200 : ℚ) ≠ 0 ∧
    (onMouseMove (Rect.mk 0 0 200 200) 150 100
        (ElemState.mk 0 0 engageTransition ())).transformX = 10 :=
  ⟨by norm_num,
    (mouseMove_translation_formula (Rect.mk 0 0 200 200) 150 100
      (ElemState.mk 0 0 engageTransition ()) (by norm_num) (by norm_num)).2.2.1⟩

/-- The moveX value computed by onMouseMove for an attached element,
as a rational: (clientX - centerX) / rect.width * strength. -/
def moveX (rect : Rect) (clientX : ℚ) : ℚ :=
  (clientX - (rect.left + rect.width / 2)) / rect.width * strength

/-- The moveY value computed by onMouseMove for an attached element. -/
def moveY (rect : Rect) (clientY : ℚ) : ℚ :=
  (clientY - (rect.top + rect.height / 2)) / rect.height * strength

/-- Squared magnitude of the translation applied on pointer-move. The
squared encoding is equivalent to comparing magnitudes, since squaring is
strictly monotone on nonnegative reals. -/
def magSq (rect : Rect) (clientX clientY : ℚ) : ℚ :=
  moveX rect clientX ^ 2 + moveY rect clientY ^ 2

/-- Squared distance of the pointer from the element's geometric center. -/
def distFromCenterSq (rect : Rect) (clientX clientY : ℚ) : ℚ :=
  (clientX - (rect.left + rect.width / 2)) ^ 2
    + (clientY - (rect.top + rect.height / 2)) ^ 2

/-- The pointer is strictly inside the element's bounds. -/
def strictlyInside (rect : Rect) (clientX clientY : ℚ) : Prop :=
  rect.left < clientX ∧ clientX < rect.left + rect.width ∧
  rect.top < clientY ∧ clientY < rect.top + rect.height

/-- Event dispatch for a page of magnetic elements: a mousemove event on
element i runs only that element's bound handler (each MagneticButton
registers its listeners on its own element). -/
def dispatchMove (rect : Rect) (clientX clientY : ℚ) (i : ℕ)
    (page : List (ElemState α)) : List (ElemState α) :=
  match page[i]? with
  | some s => page.set i (onMouseMove rect clientX clientY s)
  | none => page

/-- Event dispatch for mouseleave on element i of a page. -/
def dispatchLeave (i : ℕ) (page : List (ElemState α)) : List (ElemState α) :=
  match page[i]? with
  | some s => page.set i (onMouseLeave s)
  | none => page

/-- C4: on pointer-leave the translation is set to exactly (0,0) whatever
it was, with duration 0.7s; pointer-move uses 0.3s; 0.3 < 0.7 and both use
the same cubic-bezier timing function, for every state and geometry. -/
theorem mouseLeave_reset_and_asymmetry (s : ElemState α) (rect : Rect)
    (clientX clientY : ℚ) :
    (onMouseLeave s).transformX = 0 ∧
    (onMouseLeave s).transformY = 0 ∧
    (onMouseLeave s).transition.duration = 7/10 ∧
    (onMouseMove rect clientX clientY s).transition.duration = 3/10 ∧
    (onMouseMove rect clientX clientY s).transition.duration
        < (onMouseLeave s).transition.duration ∧
    (onMouseLeave s).transition.timingFunction
        = (onMouseMove rect clientX clientY s).transition.timingFunction := by
  refine ⟨rfl, rfl, rfl, rfl, by norm_num [onMouseMove, onMouseLeave,
    setTransition, engageTransition, releaseTransition], rfl⟩

/-- C7: for a detached element getBoundingClientRect() returns the all-zero
rect; the handler then divides by zero width/height, producing non-finite
numbers, and the resulting invalid transform declaration is dropped: the
applied transform is unchanged for every pointer position and prior state.
The handler is a total function, so no exception is thrown. -/
theorem mouseMove_detached_noop (clientX clientY : ℚ) (s : ElemState α) :
    (onMouseMove (Rect.mk 0 0 0 0) clientX clientY s).transformX = s.transformX ∧
    (onMouseMove (Rect.mk 0 0 0 0) clientX clientY s).transformY = s.transformY := by
  constructor <;> rfl

/-- C9: the pointer-move and pointer-leave handlers change only the
element's transform and transition: the abstract rest of the element's
state is preserved, and every other element of the page is untouched by
the dispatch of either event. -/
theorem handlers_frame_effect (rect : Rect) (clientX clientY : ℚ)
    (s : ElemState α) (page : List (ElemState α)) (i j : ℕ) (hij : j ≠ i) :
    (onMouseMove rect clientX clientY s).rest = s.rest ∧
    (onMouseLeave s).rest = s.rest ∧
    (dispatchMove rect clientX clientY i page)[j]? = page[j]? ∧
    (dispatchLeave i page)[j]? = page[j]? := by
  have hmv : (onMouseMove rect clientX clientY s).rest = s.rest := by
    simp [onMouseMove, setTransition, setTransform]
    rcases h : jsMul (jsDiv (JSNum.fin (clientX - (rect.left + rect.width / 2)))
        (JSNum.fin rect.width)) (JSNum.fin strength) with a | _ <;>
      rcases h2 : jsMul (jsDiv (JSNum.fin (clientY - (rect.top + rect.height / 2)))
        (JSNum.fin rect.height)) (JSNum.fin strength) with b | _ <;> rfl
  refine ⟨hmv, rfl, ?_, ?_⟩
  · unfold dispatchMove
    rcases h : page[i]? with _ | s2
    · rfl
    · simp [List.getElem?_set_ne (fun he => hij he.symm)]
  · unfold dispatchLeave
    rcases h : page[i]? with _ | s2
    · rfl
    · simp [List.getElem?_set_ne (fun he => hij he.symm)]

/-- Witness for handlers_frame_effect at a concrete input. -/
theorem handlers_frame_effect_witness :
    (1 : ℕ) ≠ 0 ∧
    (onMouseLeave (ElemState.mk 3 4 engageTransition (5 : ℚ))).rest = 5 :=
  ⟨by norm_num,
    (handlers_frame_effect (Rect.mk 0 0 200 200) 150 100
      (ElemState.mk 3 4 engageTransition (5 : ℚ)) [] 0 1 (by norm_num)).2.1⟩

/-- C3 counterexample: the claim as stated — zero at dead center, magnitude
monotonically increasing with distance from center for all pointers
strictly inside the bounds, and magnitude bounded by the strength 40 —
is false, because monotonicity fails for non-square elements. In the
200x100 element with corner (0,0), the pointer (100,99) is at squared
distance 2401 from the center (100,50) with squared magnitude 384.16,
while the pointer (190,50) is farther (squared distance 8100) yet has the
smaller squared magnitude 324. Stated with squared quantities, which is
equivalent since squaring is strictly monotone on nonnegative reals. -/
theorem magnitude_monotone_claim_false :
    ¬ (∀ rect : Rect, 0 < rect.width → 0 < rect.height →
        (magSq rect (rect.left + rect.width / 2) (rect.top + rect.height / 2) = 0) ∧
        (∀ px py qx qy : ℚ, strictlyInside rect px py → strictlyInside rect qx qy →
          distFromCenterSq rect px py ≤ distFromCenterSq rect qx qy →
          magSq rect px py ≤ magSq rect qx qy) ∧
        (∀ px py : ℚ, strictlyInside rect px py → magSq rect px py ≤ strength ^ 2)) := by
  intro h
  obtain ⟨hz, hmono, hbd⟩ := h (Rect.mk 0 0 200 100) (by norm_num) (by norm_num)
  have hcontra := hmono 100 99 190 50
    (by norm_num [strictlyInside]) (by norm_num [strictlyInside])
    (by norm_num [distFromCenterSq])
  norm_num [magSq, moveX, moveY, strength] at hcontra

/-- C3 amended: for every pointer strictly inside an attached element's
bounds, the translation is exactly zero when the pointer is at the
geometric center and its magnitude never exceeds the strength bound 40
(its square stays below 40^2); the magnitude is monotonically increasing
with the pointer's distance from the center for square elements
(width = height), but not for rectangular elements in general. -/
theorem magnitude_amended (rect : Rect) (px py : ℚ) (s : ElemState α)
    (hw : 0 < rect.width) (hh : 0 < rect.height)
    (hin : strictlyInside rect px py) :
    magSq rect (rect.left + rect.width / 2) (rect.top + rect.height / 2) = 0 ∧
    magSq rect px py < strength ^ 2 ∧
    (rect.width = rect.height →
      ∀ qx qy : ℚ, strictlyInside rect qx qy →
        distFromCenterSq rect px py ≤ distFromCenterSq rect qx qy →
        magSq rect px py ≤ magSq rect qx qy) ∧
    (onMouseMove rect px py s).transformX ^ 2
        + (onMouseMove rect px py s).transformY ^ 2 = magSq rect px py := by
  obtain ⟨h1, h2, h3, h4⟩ := hin
  refine ⟨?_, ?_, ?_, ?_⟩
  · norm_num [magSq, moveX, moveY]
  · have hdx : (px - (rect.left + rect.width / 2)) ^ 2 < (rect.width / 2) ^ 2 := by
      apply sq_lt_sq' <;> nlinarith
    have hdy : (py - (rect.top + rect.height / 2)) ^ 2 < (rect.height / 2) ^ 2 := by
      apply sq_lt_sq' <;> nlinarith
    have hx : moveX rect px ^ 2 < 400 := by
      unfold moveX strength
      rw [div_mul_eq_mul_div, div_pow, div_lt_iff₀ (by positivity)]
      nlinarith
    have hy : moveY rect py ^ 2 < 400 := by
      unfold moveY strength
      rw [div_mul_eq_mul_div, div_pow, div_lt_iff₀ (by positivity)]
      nlinarith
    have : magSq rect px py < 800 := by
      unfold magSq; linarith
    norm_num [strength]; linarith
  · intro hsq qx qy hq hle
    have e : ∀ x y : ℚ, magSq rect x y
        = 1600 / rect.width ^ 2 * distFromCenterSq rect x y := by
      intro x y
      unfold magSq moveX moveY distFromCenterSq strength
      rw [← hsq]
      field_simp
      ring
    rw [e, e]
    exact mul_le_mul_of_nonneg_left hle (by positivity)
  · have hX : (onMouseMove rect px py s).transformX = moveX rect px := by
      simp [onMouseMove, jsDiv, jsMul, setTransform, setTransition,
        hw.ne', hh.ne', moveX]
    have hY : (onMouseMove rect px py s).transformY = moveY rect py := by
      simp [onMouseMove, jsDiv, jsMul, setTransform, setTransition,
        hw.ne', hh.ne', moveY]
    rw [hX, hY]; rfl

/-- Witness for magnitude_amended at a concrete input. -/
theorem magnitude_amended_witness :
    ((0 : ℚ) < 200 ∧ strictlyInside (Rect.mk 0 0 200 200) 150 100) ∧
    magSq (Rect.mk 0 0 200 200) 150 100 < strength ^ 2 :=
  ⟨⟨by norm_num, by norm_num [strictlyInside]⟩,
    (magnitude_amended (Rect.mk 0 0 200 200) 150 100
      (ElemState.mk 0 0 engageTransition ()) (by norm_num) (by norm_num)
      (by norm_num [strictlyInside])).2.1⟩

/-!
Smooth-follower loop (src/js/main.js, initWorkHover): a floating preview
container trails the cursor with exponential smoothing while a work row
is hovered.
-/

/-- A work row as seen by the mouseenter handler: its data-img attribute,
where none models a missing attribute (getAttribute returns null). -/
structure Row where
  dataImg : Option String
  deriving DecidableEq, Repr

/-- The closure state of initWorkHover: the latest cursor sample
(mouseX, mouseY), the follower position (currentX, currentY), the
animating flag, and the observable state of the hover container
(img src, active class, left/top styles). -/
structure FollowerState where
  mouseX : ℚ
  mouseY : ℚ
  currentX : ℚ
  currentY : ℚ
  animating : Bool
  imgSrc : String
  active : Bool
  left : ℚ
  top : ℚ
  deriving DecidableEq, Repr

/-- The state right after initWorkHover runs: the let-bindings initialize
mouseX = mouseY = currentX = currentY = 0 and animating = false; the
container starts without the active class (styles taken as 0). -/
def initFollower : FollowerState :=
  { mouseX := 0, mouseY := 0, currentX := 0, currentY := 0,
    animating := false, imgSrc := "", active := false, left := 0, top := 0 }

/-- The body of animate() past the guard: the smooth-follow update
current += (mouse - current) * 0.1 per axis, then writing the container's
left/top styles from the new position. -/
def animateBody (s : FollowerState) : FollowerState :=
  let cx := s.currentX + (s.mouseX - s.currentX) * (1/10)
  let cy := s.currentY + (s.mouseY - s.currentY) * (1/10)
  { s with currentX := cx, currentY := cy, left := cx, top := cy }

/-- One invocation of animate(): if the animating flag is false it returns
immediately with no mutation and requests no frame; otherwise it runs the
smooth-follow update and requests the next animation frame (the Bool
records whether requestAnimationFrame was called). -/
def animate (s : FollowerState) : FollowerState × Bool :=
  if s.animating then (animateBody s, true) else (s, false)

/-- n frame ticks of the smooth-follow update (the body of animate run
once per rendered frame while the loop is live). -/
def frames : ℕ → FollowerState → FollowerState
  | 0, s => s
  | n + 1, s => frames n (animateBody s)

/-- n consecutive invocations of animate(), guard included: the remaining
scheduled frame callbacks running after an event handler. -/
def drainFrames : ℕ → FollowerState → FollowerState
  | 0, s => s
  | n + 1, s => drainFrames n (animate s).1

/-- The mouseenter handler of a work row: reads data-img; if it is truthy
(present and non-empty) it sets the preview image, adds the active class,
sets animating = true and calls animate() once; otherwise nothing happens. -/
def rowMouseEnter (row : Row) (s : FollowerState) : FollowerState :=
  match row.dataImg with
  | some src =>
      if src = "" then s
      else
        (animate { s with imgSrc := src, active := true, animating := true }).1
  | none => s

/-- The mousemove handler of a work row: records the cursor sample offset
by half the container size (clientX - 175, clientY - 200). -/
def rowMouseMove (clientX clientY : ℚ) (s : FollowerState) : FollowerState :=
  { s with mouseX := clientX - 175, mouseY := clientY - 200 }

/-- The mouseleave handler of a work row: removes the active class and
clears the animating flag. -/
def rowMouseLeave (s : FollowerState) : FollowerState :=
  { s with active := false, animating := false }

/-- One smooth-follow tick on a coordinate pair with fixed target m:
c + (m - c) * 0.1 per axis, exactly the update of animateBody. -/
def tick (m c : ℚ × ℚ) : ℚ × ℚ :=
  (c.1 + (m.1 - c.1) * (1/10), c.2 + (m.2 - c.2) * (1/10))

/-- n smooth-follow ticks with fixed target m. -/
def ticks (m : ℚ × ℚ) : ℕ → ℚ × ℚ → ℚ × ℚ
  | 0, c => c
  | n + 1, c => ticks m n (tick m c)

/-- Squared Euclidean distance between two coordinate pairs. -/
def distSq (p q : ℚ × ℚ) : ℚ :=
  (p.1 - q.1) ^ 2 + (p.2 - q.2) ^ 2

theorem distSq_nonneg (p q : ℚ × ℚ) : 0 ≤ distSq p q := by
  unfold distSq; positivity

theorem distSq_eq_zero_iff (p q : ℚ × ℚ) : distSq p q = 0 ↔ p = q := by
  unfold distSq
  constructor
  · intro h
    have h1 : p.1 - q.1 = 0 := by
      nlinarith [sq_nonneg (p.1 - q.1), sq_nonneg (p.2 - q.2)]
    have h2 : p.2 - q.2 = 0 := by
      nlinarith [sq_nonneg (p.1 - q.1), sq_nonneg (p.2 - q.2)]
    exact Prod.ext (sub_eq_zero.mp h1) (sub_eq_zero.mp h2)
  · intro h; subst h; ring

theorem distSq_tick (m c : ℚ × ℚ) :
    distSq m (tick m c) = 81/100 * distSq m c := by
  unfold distSq tick; ring

theorem distSq_ticks (m c : ℚ × ℚ) (n : ℕ) :
    distSq m (ticks m n c) = (81/100) ^ n * distSq m c := by
  induction n generalizing c with
  | zero => simp [ticks]
  | succ n ih =>
      rw [ticks, ih, distSq_tick]
      ring

/-- The frame iteration of animateBody computes exactly the tick iteration
on (currentX, currentY) with the fixed cursor sample as target, since
animateBody never writes mouseX/mouseY. -/
theorem frames_eq_ticks (s : FollowerState) (n : ℕ) :
    ((frames n s).currentX, (frames n s).currentY)
        = ticks (s.mouseX, s.mouseY) n (s.currentX, s.currentY) ∧
    (frames n s).mouseX = s.mouseX ∧ (frames n s).mouseY = s.mouseY := by
  induction n generalizing s with
  | zero => exact ⟨rfl, rfl, rfl⟩
  | succ n ih =>
      have h := ih (animateBody s)
      refine ⟨?_, h.2.1, h.2.2⟩
      rw [frames, h.1, ticks]
      rfl

/-- C2: with a fixed target m and exact arithmetic, every smooth-follow
tick strictly decreases the Euclidean distance from the current position
to the target whenever they differ, the distance after n ticks is bounded
by (1 - 0.1)^n times the initial distance (it equals it), and a position
that differs from the target never becomes equal to it after any finite
number of ticks. The distance is the real square root of distSq. -/
theorem follower_distance_decreases (m c : ℚ × ℚ) (n : ℕ) (h : c ≠ m) :
    Real.sqrt ((distSq m (tick m (ticks m n c)) : ℝ))
        < Real.sqrt ((distSq m (ticks m n c) : ℝ)) ∧
    Real.sqrt ((distSq m (ticks m n c) : ℝ))
        ≤ (9/10 : ℝ) ^ n * Real.sqrt ((distSq m c : ℝ)) ∧
    ticks m n c ≠ m := by
  have hd0 : 0 < distSq m c := by
    rcases lt_or_eq_of_le (distSq_nonneg m c) with hlt | heq
    · exact hlt
    · exact absurd ((distSq_eq_zero_iff m c).mp heq.symm).symm h
  have hdn : 0 < distSq m (ticks m n c) := by
    rw [distSq_ticks]; positivity
  have hdnR : (0:ℝ) < (distSq m (ticks m n c) : ℝ) := by exact_mod_cast hdn
  refine ⟨?_, ?_, ?_⟩
  · rw [distSq_tick]
    apply Real.sqrt_lt_sqrt (by positivity)
    push_cast
    nlinarith
  · have hsq : ((81:ℝ)/100) ^ n = ((9/10 : ℝ) ^ n) ^ 2 := by
      have h2 : ((9:ℝ)/10) ^ 2 = 81/100 := by norm_num
      rw [← h2, ← pow_mul, ← pow_mul, mul_comm]
    have e1 : ((distSq m (ticks m n c) : ℚ) : ℝ)
        = ((9/10 : ℝ) ^ n) ^ 2 * ((distSq m c : ℚ) : ℝ) := by
      rw [distSq_ticks]
      push_cast
      rw [hsq]
    rw [e1, Real.sqrt_mul (by positivity), Real.sqrt_sq (by positivity)]
  · intro he
    have ht := distSq_ticks m c n
    rw [he, (distSq_eq_zero_iff m m).mpr rfl] at ht
    have hp : (0:ℚ) < (81/100) ^ n * distSq m c := by positivity
    rw [← ht] at hp
    exact lt_irrefl 0 hp

/-- Witness for follower_distance_decreases at a concrete input. -/
theorem follower_distance_decreases_witness :
    ((0, 0) : ℚ × ℚ) ≠ (300, 200) ∧ ticks (300, 200) 2 (0, 0) ≠ (300, 200) :=
  ⟨by decide, (follower_distance_decreases (300, 200) (0, 0) 2 (by decide)).2.2⟩

/-- C5: starting the follower at current (0,0) with fixed target (300,200)
and smoothing factor 0.1, one frame tick gives exactly (30,20) and two
frame ticks give exactly (57,38). -/
theorem follower_two_ticks :
    (frames 1 { initFollower with
        mouseX := 300, mouseY := 200, animating := true }).currentX = 30 ∧
    (frames 1 { initFollower with
        mouseX := 300, mouseY := 200, animating := true }).currentY = 20 ∧
    (frames 2 { initFollower with
        mouseX := 300, mouseY := 200, animating := true }).currentX = 57 ∧
    (frames 2 { initFollower with
        mouseX := 300, mouseY := 200, animating := true }).currentY = 38 := by
  norm_num [frames, animateBody, initFollower]

/-- C6: the mouseleave handler clears the animating flag; a frame callback
running on a state whose flag is cleared performs no mutation and requests
no further frame, so any number of callbacks still pending after
deactivation leaves the state unchanged — the loop never runs on. -/
theorem follower_deactivation_stops (s t : FollowerState) (n : ℕ) :
    (rowMouseLeave s).animating = false ∧
    animate (rowMouseLeave s) = (rowMouseLeave s, false) ∧
    (t.animating = false → animate t = (t, false)) ∧
    drainFrames n (rowMouseLeave s) = rowMouseLeave s := by
  have hgen : ∀ u : FollowerState, u.animating = false → animate u = (u, false) := by
    intro u hu
    unfold animate
    rw [hu]
    simp
  refine ⟨rfl, hgen _ rfl, hgen t, ?_⟩
  induction n with
  | zero => rfl
  | succ k ih =>
      rw [drainFrames, hgen _ rfl]
      exact ih

/-- Witness for follower_deactivation_stops at a concrete input. -/
theorem follower_deactivation_stops_witness :
    initFollower.animating = false ∧ animate initFollower = (initFollower, false) :=
  ⟨rfl, (follower_deactivation_stops initFollower initFollower 0).2.2.1 rfl⟩

/-- C8: entering a work row whose data-img attribute is missing (or empty,
hence falsy) leaves the follower state entirely unchanged: the preview
image source, classes, flags and positions are untouched; the handler is a
total function, so no exception is thrown. -/
theorem rowEnter_missing_attr_noop (s : FollowerState) :
    rowMouseEnter (Row.mk none) s = s ∧ rowMouseEnter (Row.mk (some "")) s = s := by
  constructor
  · rfl
  · simp [rowMouseEnter]

/-- C10: the follower position is initialized to (0,0) once at setup and
never reset afterwards: mouseleave (deactivation) and mousemove keep
currentX/currentY unchanged, and re-entering a row with a truthy data-img
starts interpolating from the position where the follower previously
stopped — the first frame of the new activation moves current toward the
target from its previous value, not from the cursor or from (0,0). -/
theorem follower_position_persistent (s : FollowerState) (row : Row)
    (clientX clientY : ℚ) (src : String) :
    initFollower.currentX = 0 ∧ initFollower.currentY = 0 ∧
    (rowMouseLeave s).currentX = s.currentX ∧
    (rowMouseLeave s).currentY = s.currentY ∧
    (rowMouseMove clientX clientY s).currentX = s.currentX ∧
    (rowMouseMove clientX clientY s).currentY = s.currentY ∧
    (row.dataImg = some src → src ≠ "" →
      (rowMouseEnter row s).currentX
          = s.currentX + (s.mouseX - s.currentX) * (1/10) ∧
      (rowMouseEnter row s).currentY
          = s.currentY + (s.mouseY - s.currentY) * (1/10)) := by
  refine ⟨rfl, rfl, rfl, rfl, rfl, rfl, ?_⟩
  intro hattr hsrc
  unfold rowMouseEnter
  rw [hattr]
  simp [hsrc, animate, animateBody]

/-- Witness for follower_position_persistent at a concrete input. -/
theorem follower_position_persistent_witness :
    ((Row.mk (some "img.jpg")).dataImg = some "img.jpg" ∧ "img.jpg" ≠ "") ∧
    (rowMouseEnter (Row.mk (some "img.jpg")) initFollower).currentX
        = initFollower.currentX
            + (initFollower.mouseX - initFollower.currentX) * (1/10) :=
  ⟨⟨rfl, by decide⟩,
    ((follower_position_persistent initFollower (Row.mk (some "img.jpg")) 0 0
      "img.jpg").2.2.2.2.2.2 rfl (by decide)).1⟩

end Portfolio
